import Mathlib

/-!
Verification of the real-time segmentation and transcription-orchestration
pipeline of `backend/main_consolidated.py` (classes `AudioSegment`,
`AudioBuffer`, `WhisperASR`, `ASRProcessor`, and the websocket handlers
`handle_start_recording` / `handle_stop_recording`).

Embedding conventions:
* Python strings are `List Char`; `str.split()`, `str.strip()`, `str.lower()`,
  `str.isdigit()`, substring membership (`in`) and `startswith` are modelled by
  executable functions below (ASCII-faithful, which covers every constant the
  program compares against).
* Python floats are modelled by exact rationals `ℚ`; audio sample values are an
  arbitrary type `α`, and the external WebRTC VAD classifier
  (`VADProcessor.is_speech`, including its fail-open exception handler) is an
  oracle `List α → Bool` carried in the buffer state.
* Fallible external calls (model loading, `model.transcribe`, file I/O) are
  oracles of type `Except PyErr _`; Python exception propagation is translated
  into the `Except` structure of the embedded function.
* `collections.deque(maxlen=1000)` is a `List` that drops from the front when
  an append pushes it past 1000 entries.
-/

/-- Source `c.isWhitespace`, the separator class of Python `str.split()`/`str.strip()`. -/
def isWsChar (c : Char) : Bool := c.isWhitespace

/-- Python `str.split()` (no argument): split on runs of whitespace, no empty
words. -/
def splitWs : List Char → List (List Char)
  | [] => []
  | c :: cs =>
    if c.isWhitespace then
      splitWs cs
    else
      (c :: cs.takeWhile (fun d => !d.isWhitespace)) ::
        splitWs (cs.dropWhile (fun d => !d.isWhitespace))
termination_by l => l.length
decreasing_by
  · simp only [List.length_cons]; omega
  · have h := (List.dropWhile_sublist (l := cs) (p := fun d => !d.isWhitespace)).length_le
    simp only [List.length_cons]; omega

/-- Python `" ".join(ws)`. -/
def joinWords : List (List Char) → List Char
  | [] => []
  | [w] => w
  | w :: ws => w ++ ' ' :: joinWords ws

/-- Python `str.strip()`: remove leading and trailing whitespace. -/
def stripWs (l : List Char) : List Char :=
  ((l.dropWhile isWsChar).reverse.dropWhile isWsChar).reverse

/-- Python `str.lower()` (ASCII range, which covers the program's constants). -/
def lowerStr (l : List Char) : List Char := l.map Char.toLower

/-- Python substring membership `p in l`. -/
def hasSubstr (p : List Char) : List Char → Bool
  | [] => p.isEmpty
  | c :: cs => p.isPrefixOf (c :: cs) || hasSubstr p cs

/-- Python `str.isdigit()`: nonempty and all digits. -/
def isDigitStr (l : List Char) : Bool := !l.isEmpty && l.all Char.isDigit

/-- Python `str.startswith((p₁, …, pₙ))`. -/
def startsWithAny (l : List Char) (ps : List (List Char)) : Bool :=
  ps.any (fun p => p.isPrefixOf l)

/-!
## Segmenting Buffer (`class AudioSegment`, `class AudioBuffer`)
-/

/-- Source `class AudioSegment`: `data`, `timestamp`, `sample_rate`
(`self.duration = len(data) / sample_rate` is the derived field below). -/
structure AudioSegment (α : Type) where
  data : List α
  timestamp : ℚ
  sample_rate : ℕ
deriving DecidableEq

/-- Source `self.duration = len(data) / sample_rate`. -/
def AudioSegment.duration {α : Type} (s : AudioSegment α) : ℚ :=
  (s.data.length : ℚ) / (s.sample_rate : ℚ)

/-- Source `class AudioBuffer` state.  The unused fields `segment_samples` and
`current_segment` of the source are omitted; `self.buffer = deque(maxlen=1000)`
is the list `buffer` together with the drop-from-front step in `add_chunk`;
`self.vad` is the external classifier oracle. -/
structure AudioBuffer (α : Type) where
  sample_rate : ℕ
  segment_duration : ℚ
  max_buffer_duration : ℚ
  buffer : List (AudioSegment α)
  speech_frames : ℕ
  silence_frames : ℕ
  min_speech_frames : ℕ
  max_silence_frames : ℕ
  vad : List α → Bool

  total_duration : ℚ

/-- Source `AudioBuffer.__init__(sample_rate=16000, segment_duration=3.0,
max_buffer_duration=15.0)`.  `min_speech_frames = int(0.2 * 1000 / 30)` is
`⌊200/30⌋ = 6`.  The source assigns `max_silence_frames` twice: first
`int(0.5 * 1000 / 30)` (= 16, "500ms of silence"), then — in a duplicated
initialization block after the `print` — `int(1.0 * 1000 / 30)` (= 33, "1s of
silence"); the second assignment is the one in effect. -/
def mkAudioBuffer {α : Type} (vad : List α → Bool) (sample_rate : ℕ := 16000)
    (segment_duration : ℚ := 3) (max_buffer_duration : ℚ := 15) : AudioBuffer α :=
  { sample_rate := sample_rate
    segment_duration := segment_duration
    max_buffer_duration := max_buffer_duration
    buffer := []
    speech_frames := 0
    silence_frames := 0
    min_speech_frames := 200 / 30
    max_silence_frames := 1000 / 30
    vad := vad
    total_duration := 0 }

/-- Total number of samples held across the buffered chunks. -/
def chunkSamples {α : Type} (l : List (AudioSegment α)) : ℕ :=
  (l.map (fun c => c.data.length)).sum

/-- One step of the VAD loop body of `add_chunk`:
`if self.vad.is_speech(frame): self.speech_frames += 1; self.silence_frames = 0
else: self.silence_frames += 1`. -/
def vadStep {α : Type} (vad : List α → Bool) (st : ℕ × ℕ) (frame : List α) : ℕ × ℕ :=
  if vad frame then (st.1 + 1, 0) else (st.1, st.2 + 1)

/-- The whole VAD loop of `add_chunk` over a list of frames. -/
def vadScan {α : Type} (vad : List α → Bool) (st : ℕ × ℕ)
    (frames : List (List α)) : ℕ × ℕ :=
  frames.foldl (vadStep vad) st

/-- Source `for i in range(0, len(audio_data), frame_samples): frame = audio_data[i:i+frame_samples]
; if len(frame) == frame_samples: …` — the list of complete `fs`-sized
sub-frames of a chunk (a trailing partial slice is skipped). -/
def chunkFrames {α : Type} (fs : ℕ) (l : List α) : List (List α) :=
  if _h : fs = 0 ∨ l.length < fs then []
  else l.take fs :: chunkFrames fs (l.drop fs)
termination_by l.length
decreasing_by
  rw [List.length_drop]; omega

/-- Source `AudioBuffer._create_segment`: `None` on an empty buffer; otherwise
concatenate every buffered chunk; if the concatenation is nonempty, emit it
(stamped with the first chunk's timestamp) and reset buffer and counters,
else return `None` (without resetting anything). -/
def AudioBuffer.create_segment {α : Type} (st : AudioBuffer α) :
    AudioBuffer α × Option (AudioSegment α) :=
  match st.buffer with
  | [] => (st, none)
  | c :: _ =>
    let audio_data := (st.buffer.map (fun k => k.data)).flatten
    if audio_data.isEmpty then (st, none)
    else
      ({ st with buffer := [], speech_frames := 0, silence_frames := 0,
                 total_duration := 0 },
       some { data := audio_data, timestamp := c.timestamp,
              sample_rate := st.sample_rate })

/-- The append phase of `add_chunk`: wrap the chunk, append it to the deque
(dropping from the front past 1000 entries) and add its duration. -/
def pushChunk {α : Type} (st : AudioBuffer α) (audio_data : List α)
    (timestamp : ℚ) : AudioBuffer α :=
  let chunk : AudioSegment α :=
    { data := audio_data, timestamp := timestamp, sample_rate := st.sample_rate }
  let b := st.buffer ++ [chunk]
  let b := if 1000 < b.length then b.drop (b.length - 1000) else b
  { st with buffer := b, total_duration := st.total_duration + chunk.duration }

/-- The VAD-scanning phase of `add_chunk`: run the VAD over the complete 30 ms
sub-frames of the new chunk (`frame_samples = int(sample_rate * 0.03)`,
i.e. `sample_rate * 3 / 100`) and update the counters. -/
def scanChunk {α : Type} (st : AudioBuffer α) (audio_data : List α) : AudioBuffer α :=
  let fs := st.sample_rate * 3 / 100
  let r := vadScan st.vad (st.speech_frames, st.silence_frames) (chunkFrames fs audio_data)
  { st with speech_frames := r.1, silence_frames := r.2 }

/-- Source `AudioBuffer.add_chunk(audio_data, timestamp)`, translated line by line:
append the chunk; force-flush on buffer overflow; otherwise run the VAD scan
and then check the VAD boundary, the duration fallback and the chunk-count
fallback in that order. -/
def AudioBuffer.add_chunk {α : Type} (st : AudioBuffer α) (audio_data : List α)
    (timestamp : ℚ) : AudioBuffer α × Option (AudioSegment α) :=
  let st := pushChunk st audio_data timestamp
  if st.max_buffer_duration ≤ st.total_duration then
    st.create_segment
  else
    let st := scanChunk st audio_data
    if st.min_speech_frames ≤ st.speech_frames ∧
        st.max_silence_frames ≤ st.silence_frames then
      st.create_segment
    else if st.segment_duration ≤ st.total_duration then
      st.create_segment
    else if 100 ≤ st.buffer.length then
      st.create_segment
    else
      (st, none)

/-- Feed a sequence of `(audio_data, timestamp)` chunks through `add_chunk`,
collecting the emitted Utterances in order. -/
def feed {α : Type} (st : AudioBuffer α) :
    List (List α × ℚ) → AudioBuffer α × List (AudioSegment α)
  | [] => (st, [])
  | (d, t) :: rest =>
    let r := st.add_chunk d t
    let f := feed r.1 rest
    (f.1, r.2.toList ++ f.2)

/-!
Named boundary conditions of the spec's §4.1 policy (1)–(4), written from the
spec's words, each evaluated on the buffer state at its check point.
-/

/-- Spec policy (1), overflow: accumulated duration ≥ `max_buffer_duration`. -/
def overflowCond {α : Type} (st : AudioBuffer α) : Prop :=
  st.max_buffer_duration ≤ st.total_duration

/-- Spec policy (2), VAD boundary: `speech_frames ≥ min_speech_frames` and
`silence_frames ≥ max_silence_frames`. -/
def vadBoundaryCond {α : Type} (st : AudioBuffer α) : Prop :=
  st.min_speech_frames ≤ st.speech_frames ∧ st.max_silence_frames ≤ st.silence_frames

/-- Spec policy (3), duration fallback: accumulated duration ≥ `segment_duration`. -/
def durationCond {α : Type} (st : AudioBuffer α) : Prop :=
  st.segment_duration ≤ st.total_duration

/-- Spec policy (4), count fallback: accumulated chunk count ≥ the fixed
ceiling 100. -/
def countCond {α : Type} (st : AudioBuffer α) : Prop :=
  100 ≤ st.buffer.length

instance {α : Type} (st : AudioBuffer α) : Decidable (overflowCond st) := by
  unfold overflowCond; infer_instance

instance {α : Type} (st : AudioBuffer α) : Decidable (vadBoundaryCond st) := by
  unfold vadBoundaryCond; infer_instance

instance {α : Type} (st : AudioBuffer α) : Decidable (durationCond st) := by
  unfold durationCond; infer_instance

instance {α : Type} (st : AudioBuffer α) : Decidable (countCond st) := by
  unfold countCond; infer_instance

/-!
## Transcription Engine (`class WhisperASR`)
-/

/-- Source `self.UNWANTED_PHRASES` of `WhisperASR.__init__`. -/
def UNWANTED_PHRASES : List (List Char) :=
  [ "subscribe".data, "bell icon".data, "channel".data, "like and share".data,
    "thanks for watching".data, "follow me on".data, "social media".data,
    "instagram".data, "twitter".data, "facebook".data,
    "don\x27t forget to".data, "smash that".data, "notification".data,
    "comment below".data ]

/-- Source `WhisperASR.clean_text`: split on whitespace and drop every word whose
lowercase form is exactly one of the unwanted phrases, rejoining with single
spaces. -/
def clean_text (text : List Char) : List Char :=
  joinWords ((splitWs text).filter (fun w => !UNWANTED_PHRASES.contains (lowerStr w)))

/-- One raw segment as yielded by `self.model.transcribe` (fields read by the
filter: `text`, `avg_logprob`, `start`, `end`). -/
structure RawSegment where
  text : List Char
  avg_logprob : ℚ
  start : ℚ
  end_ : ℚ
deriving DecidableEq

/-- One surviving transcript segment, as appended to `transcript_segments`. -/
structure TranscriptSegment where
  text : List Char
  start : ℚ
  end_ : ℚ
  confidence : ℚ
deriving DecidableEq

/-- The post-decoding filter of `transcribe_segment`, acting segment-wise on
the raw decoder output (keeping the raw coordinate fields): drop on
`avg_logprob < -1.0`; clean via `clean_text(seg.text.strip())`; keep only if
the cleaned text is truthy and longer than 3 characters and no unwanted
phrase occurs in its lowercase form as a substring. -/
def filterSeg (seg : RawSegment) : Option RawSegment :=
  if seg.avg_logprob < -1 then none
  else
    let cleaned := clean_text (stripWs seg.text)
    if cleaned ≠ [] ∧ 3 < cleaned.length then
      if UNWANTED_PHRASES.any (fun p => hasSubstr p (lowerStr cleaned)) then none
      else some { seg with text := cleaned }
    else none

def filterCore (segs : List RawSegment) : List RawSegment :=
  segs.filterMap filterSeg

/-- The `transcript_segments` list built by `transcribe_segment` for an
Utterance stamped `ts`: the filtered segments with the Utterance timestamp
added to each segment's coordinates. -/
def transcript_segments (ts : ℚ) (segs : List RawSegment) : List TranscriptSegment :=
  (filterCore segs).map (fun seg =>
    { text := seg.text, start := ts + seg.start, end_ := ts + seg.end_,
      confidence := seg.avg_logprob })

/-- Source `full_text = " ".join([s["text"] for s in transcript_segments if s["text"]])`. -/
def full_text_of (segs : List TranscriptSegment) : List Char :=
  joinWords ((segs.map (fun s => s.text)).filter (fun t => !t.isEmpty))

/-- Source `avg_confidence`: mean of surviving confidences, `0.0` if none survive. -/
def avg_confidence_of (segs : List TranscriptSegment) : ℚ :=
  if segs ≠ [] then ((segs.map (fun s => s.confidence)).sum) / (segs.length : ℚ)
  else 0

/-!
Staged restatement of the spec's §4.2 filter, one stage per clause of the
claim, to compare with the fused single-pass `filterCore` of the source.
-/

/-- Spec stage (a): drop segments whose model-reported confidence is below the
fixed floor. -/
def stageConfidence (segs : List RawSegment) : List RawSegment :=
  segs.filter (fun seg => !decide (seg.avg_logprob < -1))

/-- Spec stage (b): clean each segment's text (the amended claim: remove each
whitespace-delimited word whose lowercase form equals an unwanted phrase). -/
def stageClean (segs : List RawSegment) : List RawSegment :=
  segs.map (fun seg => { seg with text := clean_text (stripWs seg.text) })

/-- Spec stage (c): drop segments whose cleaned text is empty or not longer
than the 3-character minimum. -/
def stageLength (segs : List RawSegment) : List RawSegment :=
  segs.filter (fun seg => !seg.text.isEmpty && decide (3 < seg.text.length))

/-- Spec stage (d): drop segments still matching the hallucination blocklist
(an unwanted phrase occurring as a substring of the lowercase cleaned text). -/
def stageBlocklist (segs : List RawSegment) : List RawSegment :=
  segs.filter (fun seg => !UNWANTED_PHRASES.any (fun p => hasSubstr p (lowerStr seg.text)))


/-- Language detection info from `model.transcribe`. -/
structure TranscribeInfo where
  language : List Char
  language_probability : ℚ
deriving DecidableEq

/-- The output of one successful `self.model.transcribe(...)` call (an
external oracle): the decoded raw segments plus the info record. -/
structure RawTranscription where
  segments : List RawSegment
  info : TranscribeInfo
deriving DecidableEq

/-- The `model_info` sub-dict of a transcription result.  `fallback_used` is
`true` only in the CPU-retry result (the key is absent, encoded `false`, in
the main-path result). -/
structure ModelInfo where
  model_size : List Char
  device : List Char
  compute_type : List Char
  fallback_used : Bool
deriving DecidableEq

/-- The mutable `WhisperASR` configuration state touched by
`transcribe_segment`: `model_size`, `device`, `compute_type`, and whether
`self.model` is loaded (`is_ready`). -/
structure WhisperState where
  model_size : List Char
  device : List Char
  compute_type : List Char
  model_loaded : Bool
deriving DecidableEq

/-- The result dict of `transcribe_segment`; `Option` fields model dict keys
that are absent in some of the three return shapes (not-ready, success,
post-failure). -/
structure TranscribeResult where
  text : List Char
  start : ℚ
  end_ : ℚ
  confidence : Option ℚ
  segments : Option (List TranscriptSegment)
  language : Option (List Char)
  language_probability : Option ℚ
  segments_filtered : Option ℕ
  model_info : Option ModelInfo
  error : Option (List Char)
deriving DecidableEq

/-- Source `("cublas" in error_msg or "cuda" in error_msg or "gpu" in error_msg)`
with `error_msg = str(e).lower()`. -/
def cudaSignature (e : List Char) : Bool :=
  hasSubstr "cublas".data (lowerStr e) || hasSubstr "cuda".data (lowerStr e) ||
    hasSubstr "gpu".data (lowerStr e)

/-- The segment filter of the CPU-retry path (`except` block): keep a segment
iff `confidence > -1.0 and len(text) > 3` after cleaning; coordinates are kept
raw (no Utterance-timestamp offset) on this path.  The per-word detail list of
the source is external decoder data and is omitted. -/
def retryFilter (segs : List RawSegment) : List TranscriptSegment :=
  segs.filterMap (fun seg =>
    let text := clean_text (stripWs seg.text)
    if -1 < seg.avg_logprob ∧ 3 < text.length then
      some { text := text, start := seg.start, end_ := seg.end_,
             confidence := seg.avg_logprob }
    else none)

/-- Source `{"text": "", "start": ts, "end": ts + duration, "error": str(e)}`. -/
def errorResult {α : Type} (seg : AudioSegment α) (e : List Char) : TranscribeResult :=
  { text := [], start := seg.timestamp, end_ := seg.timestamp + seg.duration,
    confidence := none, segments := none, language := none,
    language_probability := none, segments_filtered := none, model_info := none,
    error := some e }

/-- The success-path result dict of `transcribe_segment`. -/
def successResult {α : Type} (st : WhisperState) (seg : AudioSegment α)
    (raw : RawTranscription) : TranscribeResult :=
  let tsegs := transcript_segments seg.timestamp raw.segments
  { text := full_text_of tsegs, start := seg.timestamp,
    end_ := seg.timestamp + seg.duration,
    confidence := some (avg_confidence_of tsegs), segments := some tsegs,
    language := some raw.info.language,
    language_probability := some raw.info.language_probability,
    segments_filtered := some (raw.segments.length - tsegs.length),
    model_info := some { model_size := st.model_size, device := st.device,
                         compute_type := st.compute_type, fallback_used := false },
    error := none }

/-- The CPU-retry result dict of `transcribe_segment`. -/
def retryResult {α : Type} (st : WhisperState) (seg : AudioSegment α)
    (raw : RawTranscription) : TranscribeResult :=
  let kept := retryFilter raw.segments
  { text := joinWords (kept.map (fun s => s.text)), start := seg.timestamp,
    end_ := seg.timestamp + seg.duration,
    confidence := some (avg_confidence_of kept), segments := some kept,
    language := some raw.info.language,
    language_probability := some raw.info.language_probability,
    segments_filtered := some (raw.segments.length - kept.length),
    model_info := some { model_size := st.model_size, device := st.device,
                         compute_type := st.compute_type, fallback_used := true },
    error := none }

/-- The `except Exception as e:` handler of `transcribe_segment`.  On a CUDA
error signature while `self.device == "cuda"`: reload on CPU (`reload_cpu`
oracle), set `device`/`compute_type`, retry the same audio once (`call2`
oracle) and unlink the temp file; any failure inside this inner `try` falls
through to the `{"text": "", …, "error": str(e)}` return carrying the original
exception.  Without the CUDA signature the error dict is returned directly. -/
def transcribeHandler {α : Type} (st : WhisperState) (seg : AudioSegment α)
    (reload_cpu : Except (List Char) Unit)
    (call2 : Except (List Char) RawTranscription)
    (unlink2 : Except (List Char) Unit) (e : List Char) :
    Except (List Char) (WhisperState × TranscribeResult) :=
  if cudaSignature e ∧ st.device = "cuda".data then
    match reload_cpu with
    | .error _ => .ok (st, errorResult seg e)
    | .ok _ =>
      let st := { st with device := "cpu".data, compute_type := "int8".data }
      match call2 with
      | .error _ => .ok (st, errorResult seg e)
      | .ok raw =>
        match unlink2 with
        | .error _ => .ok (st, errorResult seg e)
        | .ok _ => .ok (st, retryResult st seg raw)
  else
    .ok (st, errorResult seg e)

/-- Source `WhisperASR.transcribe_segment(segment)`.  External effects are oracles:
`write_wav` (temp-file creation + `sf.write`), `call1`/`call2` (the
`model.transcribe` calls, including iterating their generators),
`unlink1`/`unlink2` (`os.unlink`), `reload_cpu` (the in-place CPU model
reload).  The `Except` result is the translated Python exception behaviour of
the whole call: `.error` would mean an exception escaping to the caller. -/
def transcribe_segment {α : Type} (st : WhisperState) (seg : AudioSegment α)
    (write_wav : Except (List Char) Unit)
    (call1 : Except (List Char) RawTranscription)
    (unlink1 : Except (List Char) Unit)
    (reload_cpu : Except (List Char) Unit)
    (call2 : Except (List Char) RawTranscription)
    (unlink2 : Except (List Char) Unit) :
    Except (List Char) (WhisperState × TranscribeResult) :=
  if ¬st.model_loaded then
    .ok (st, { text := [], start := seg.timestamp,
               end_ := seg.timestamp + seg.duration, confidence := none,
               segments := none, language := none, language_probability := none,
               segments_filtered := none, model_info := none,
               error := some "Model not ready".data })
  else
    match write_wav with
    | .error e => transcribeHandler st seg reload_cpu call2 unlink2 e
    | .ok _ =>
      match call1 with
      | .error e => transcribeHandler st seg reload_cpu call2 unlink2 e
      | .ok raw =>
        match unlink1 with
        | .error e => transcribeHandler st seg reload_cpu call2 unlink2 e
        | .ok _ => .ok (st, successResult st seg raw)

/-!
## Session Manager / Aggregator (`handle_start_recording`,
`handle_stop_recording`, `ASRProcessor.set_session`)
-/

/-- The per-transcript quality validation of `handle_stop_recording`
(applied to the stripped text): nonempty, `len >= 3`, not `isdigit`, not
`"..."`, not `"null"`, and the lowercase text does not start with `"error"`,
`"failed"` or `"timeout"`. -/
def transcriptValid (text : List Char) : Bool :=
  !text.isEmpty && decide (3 ≤ text.length) && !isDigitStr text &&
    !(text = "...".data : Bool) && !(text = "null".data : Bool) &&
    !startsWithAny (lowerStr text) [ "error".data, "failed".data, "timeout".data ]

/-- The `valid_transcripts` list: each stored transcript text, stripped, that
passes the quality validation. -/
def valid_transcripts_of (texts : List (List Char)) : List (List Char) :=
  (texts.map stripWs).filter transcriptValid

/-- Source `original_transcript`: the valid texts concatenated with trailing spaces
then stripped; afterwards, a transcript of at least 10 characters containing
no alphabetic character is replaced by the empty string. -/
def original_transcript_of (texts : List (List Char)) : List Char :=
  let o := stripWs (((valid_transcripts_of texts).map (fun t => t ++ [' '])).flatten)
  if o.length < 10 then o
  else if o.any Char.isAlpha then o
  else []

/-- Source `"transcript_quality": "high" if len(original_transcript) > 100 else
"medium" if len(original_transcript) > 50 else "low"`. -/
def transcript_quality (original : List Char) : List Char :=
  if 100 < original.length then "high".data
  else if 50 < original.length then "medium".data
  else "low".data

/-- The aggregated artifact fields of the `recording_stopped` response that
the core computes from the session's transcript log (the NLP/sentiment fields
are external collaborators). -/
structure StopArtifact where
  original_transcript : List Char
  transcript_quality : List Char
  total_transcript_segments : ℕ
  valid_transcript_segments : ℕ
  original_transcript_length : ℕ
deriving DecidableEq

/-- The aggregation performed by `handle_stop_recording` on the session's
stored transcript texts. -/
def stopArtifact (texts : List (List Char)) : StopArtifact :=
  let original := original_transcript_of texts
  { original_transcript := original
    transcript_quality := transcript_quality original
    total_transcript_segments := texts.length
    valid_transcript_segments := (valid_transcripts_of texts).length
    original_transcript_length := original.length }

/-- A `Session` dict as built by `handle_start_recording` (transcript entries
are carried as their text). -/
structure SessionRec where
  session_id : List Char
  client_id : List Char
  capture_mode : List Char
  start_time : ℚ
  transcripts : List (List Char)
  audio_chunks : ℕ
  audio_only : Bool
  storage_path : Option (List Char)

/-- Outbound websocket messages produced by the recording handlers. -/
inductive OutMessage where
  | recording_started (session_id : List Char) (asr_enabled : Bool)
  | recording_stopped (artifact : StopArtifact)
  | error (message : List Char)
deriving DecidableEq

/-- The `ASRProcessor` per-session state touched by `set_session`. -/
structure ASRSessionState where
  session_id : Option (List Char)
  transcripts : List (List Char)
deriving DecidableEq

/-- Source `ASRProcessor.set_session`: bind the new session id and clear the
transcript accumulation. -/
def set_session (_st : ASRSessionState) (sid : List Char) : ASRSessionState :=
  { session_id := some sid, transcripts := [] }

/-- Source `session_id = f"session_{int(time.time())}_{client_id}"`. -/
def sessionIdOf (now : ℕ) (client : List Char) : List Char :=
  "session_".data ++ (Nat.repr now).data ++ "_".data ++ client

/-- Source `handle_start_recording`: build a fresh `Session` (empty transcript list,
zero chunk count), bind it under the client id in `active_sessions`
(overwriting any existing binding), re-point the ASR processor at the new
session id, and send a single `recording_started` acknowledgment.  Storage
setup (`os.makedirs`) is modelled as succeeding. -/
def handle_start_recording (now : ℕ) (client : List Char)
    (captureMode : List Char) (audio_only : Bool) (storage_enabled : Bool)
    (storage_base_path : List Char)
    (sessions : List Char → Option SessionRec)
    (asr : Option ASRSessionState) (asr_ready : Bool) :
    (List Char → Option SessionRec) × Option ASRSessionState × List OutMessage :=
  let sid := sessionIdOf now client
  let session : SessionRec :=
    { session_id := sid, client_id := client, capture_mode := captureMode,
      start_time := (now : ℚ), transcripts := [], audio_chunks := 0,
      audio_only := audio_only,
      storage_path :=
        if storage_enabled then some (storage_base_path ++ "/".data ++ sid)
        else none }
  let sessions' := fun c => if c = client then some session else sessions c
  let asr' := asr.map (fun a => set_session a sid)
  (sessions', asr', [OutMessage.recording_started sid (asr.isSome && asr_ready)])

/-!
## Helper lemmas: sample accounting and `_create_segment`
-/

/-- Sample count of an emission result. -/
def optSamples {α : Type} : Option (AudioSegment α) → ℕ
  | none => 0
  | some u => u.data.length

theorem chunkSamples_append {α : Type} (l₁ l₂ : List (AudioSegment α)) :
    chunkSamples (l₁ ++ l₂) = chunkSamples l₁ + chunkSamples l₂ := by
  simp [chunkSamples]

theorem chunkSamples_flatten {α : Type} (l : List (AudioSegment α)) :
    ((l.map (fun k => k.data)).flatten).length = chunkSamples l := by
  simp only [List.length_flatten, List.map_map]
  rfl

theorem chunkSamples_drop_of_zero {α : Type} (l : List (AudioSegment α)) (k : ℕ)
    (h : chunkSamples l = 0) : chunkSamples (l.drop k) = 0 := by
  have := chunkSamples_append (l.take k) (l.drop k)
  rw [List.take_append_drop] at this
  omega

theorem create_segment_nil {α : Type} (st : AudioBuffer α) (hb : st.buffer = []) :
    st.create_segment = (st, none) := by
  unfold AudioBuffer.create_segment
  rw [hb]

theorem create_segment_cons {α : Type} (st : AudioBuffer α) (c : AudioSegment α)
    (rest : List (AudioSegment α)) (hb : st.buffer = c :: rest) :
    st.create_segment =
      (if (((c :: rest).map (fun k => k.data)).flatten).isEmpty then (st, none)
       else
         ({ st with buffer := [], speech_frames := 0, silence_frames := 0,
                    total_duration := 0 },
          some { data := ((c :: rest).map (fun k => k.data)).flatten,
                 timestamp := c.timestamp, sample_rate := st.sample_rate })) := by
  unfold AudioBuffer.create_segment
  rw [hb]

theorem create_segment_cases {α : Type} (st : AudioBuffer α) :
    ((st.create_segment = (st, none) ∧ chunkSamples st.buffer = 0) ∨
     (chunkSamples st.buffer ≠ 0 ∧ ∃ c rest, st.buffer = c :: rest ∧
        st.create_segment =
          ({ st with buffer := [], speech_frames := 0, silence_frames := 0,
                     total_duration := 0 },
           some { data := ((c :: rest).map (fun k => k.data)).flatten,
                  timestamp := c.timestamp, sample_rate := st.sample_rate }))) := by
  rcases hb : st.buffer with _ | ⟨c, rest⟩
  · exact Or.inl ⟨create_segment_nil st hb, by simp [chunkSamples, hb]⟩
  · by_cases he : (((c :: rest).map (fun k => k.data)).flatten).isEmpty
    · left
      refine ⟨?_, ?_⟩
      · rw [create_segment_cons st c rest hb, if_pos he]
      · have he' := List.isEmpty_iff.mp he
        rw [← chunkSamples_flatten, he', List.length_nil]
    · right
      refine ⟨?_, c, rest, rfl, ?_⟩
      · rw [← chunkSamples_flatten]
        rw [List.isEmpty_iff] at he
        exact fun h0 => he (List.eq_nil_of_length_eq_zero h0)
      · rw [create_segment_cons st c rest hb, if_neg he]

theorem create_segment_conserves {α : Type} (st : AudioBuffer α) :
    chunkSamples (st.create_segment).1.buffer + optSamples (st.create_segment).2 =
      chunkSamples st.buffer := by
  rcases create_segment_cases st with ⟨h, hz⟩ | ⟨_hnz, c, rest, hb, h⟩
  · rw [h]; simp [optSamples, hz]
  · rw [h]
    show chunkSamples [] + (((c :: rest).map (fun k => k.data)).flatten).length =
      chunkSamples st.buffer
    rw [chunkSamples_flatten, hb]
    simp [chunkSamples]

theorem create_segment_none_eq {α : Type} (st : AudioBuffer α)
    (h : (st.create_segment).2 = none) :
    (st.create_segment).1 = st ∧ chunkSamples st.buffer = 0 := by
  rcases create_segment_cases st with ⟨he, hz⟩ | ⟨_hnz, c, rest, _hb, he⟩
  · exact ⟨by rw [he], hz⟩
  · rw [he] at h; simp at h

theorem create_segment_some_resets {α : Type} (st : AudioBuffer α) (u : AudioSegment α)
    (h : (st.create_segment).2 = some u) :
    (st.create_segment).1.buffer = [] ∧ (st.create_segment).1.speech_frames = 0 ∧
      (st.create_segment).1.silence_frames = 0 ∧
      (st.create_segment).1.total_duration = 0 := by
  rcases create_segment_cases st with ⟨he, _⟩ | ⟨_hnz, c, rest, _hb, he⟩
  · rw [he] at h; simp at h
  · rw [he]; exact ⟨rfl, rfl, rfl, rfl⟩

theorem create_segment_isSome_iff {α : Type} (st : AudioBuffer α) :
    ((st.create_segment).2).isSome = true ↔ chunkSamples st.buffer ≠ 0 := by
  rcases create_segment_cases st with ⟨he, hz⟩ | ⟨hnz, c, rest, _hb, he⟩
  · rw [he]; simp [hz]
  · rw [he]; simp [hnz]

/-!
## Helper lemmas: `add_chunk` structure, VAD counters and audio conservation
-/

theorem add_chunk_dispatch {α : Type} (st : AudioBuffer α) (d : List α) (t : ℚ) :
    st.add_chunk d t =
      (if overflowCond (pushChunk st d t) then (pushChunk st d t).create_segment
       else if vadBoundaryCond (scanChunk (pushChunk st d t) d) then
         (scanChunk (pushChunk st d t) d).create_segment
       else if durationCond (scanChunk (pushChunk st d t) d) then
         (scanChunk (pushChunk st d t) d).create_segment
       else if countCond (scanChunk (pushChunk st d t) d) then
         (scanChunk (pushChunk st d t) d).create_segment
       else (scanChunk (pushChunk st d t) d, none)) := rfl

theorem vadScan_cons {α : Type} (vad : List α → Bool) (sp si : ℕ) (f : List α)
    (fs : List (List α)) :
    vadScan vad (sp, si) (f :: fs) =
      vadScan vad (if vad f then (sp + 1, 0) else (sp, si + 1)) fs := by
  unfold vadScan vadStep
  rcases h : vad f with _ | _ <;> simp [h]

theorem vadScan_speech_mono {α : Type} (vad : List α → Bool) (fs : List (List α)) :
    ∀ sp si : ℕ, sp ≤ (vadScan vad (sp, si) fs).1 := by
  induction fs with
  | nil => intro sp si; exact le_refl _
  | cons f fs ih =>
    intro sp si
    rw [vadScan_cons]
    rcases h : vad f with _ | _
    · simp only [h, Bool.false_eq_true, if_false]
      exact ih sp (si + 1)
    · simp only [h, if_true]
      exact le_trans (Nat.le_succ sp) (ih (sp + 1) 0)

theorem vadScan_all_silence {α : Type} (vad : List α → Bool) (fs : List (List α)) :
    ∀ sp si : ℕ, (∀ g ∈ fs, vad g = false) →
      vadScan vad (sp, si) fs = (sp, si + fs.length) := by
  induction fs with
  | nil => intro sp si _; simp [vadScan]
  | cons f fs ih =>
    intro sp si hall
    rw [vadScan_cons]
    have hf : vad f = false := hall f (List.mem_cons_self f fs)
    rw [hf]
    simp only [Bool.false_eq_true, if_false]
    rw [ih sp (si + 1) (fun g hg => hall g (List.mem_cons_of_mem f hg))]
    simp only [List.length_cons, Prod.mk.injEq]
    exact ⟨trivial, by omega⟩

/-- The appended buffer `self.buffer.append(chunk)` before the deque cap. -/
def pushedBuffer {α : Type} (st : AudioBuffer α) (d : List α) (t : ℚ) :
    List (AudioSegment α) :=
  st.buffer ++ [{ data := d, timestamp := t, sample_rate := st.sample_rate }]

theorem pushChunk_buffer {α : Type} (st : AudioBuffer α) (d : List α) (t : ℚ) :
    (pushChunk st d t).buffer =
      if 1000 < (pushedBuffer st d t).length then
        (pushedBuffer st d t).drop ((pushedBuffer st d t).length - 1000)
      else pushedBuffer st d t := rfl

theorem pushedBuffer_samples {α : Type} (st : AudioBuffer α) (d : List α) (t : ℚ) :
    chunkSamples (pushedBuffer st d t) = chunkSamples st.buffer + d.length := by
  simp [pushedBuffer, chunkSamples]

theorem pushedBuffer_length {α : Type} (st : AudioBuffer α) (d : List α) (t : ℚ) :
    (pushedBuffer st d t).length = st.buffer.length + 1 := by
  simp [pushedBuffer]

theorem pushChunk_samples {α : Type} (st : AudioBuffer α) (d : List α) (t : ℚ)
    (hJ : chunkSamples st.buffer = 0 ∨ st.buffer.length < 100) :
    chunkSamples (pushChunk st d t).buffer = chunkSamples st.buffer + d.length := by
  rw [pushChunk_buffer]
  by_cases hd : 1000 < (pushedBuffer st d t).length
  · rw [if_pos hd]
    have hlen : 1000 ≤ st.buffer.length := by
      rw [pushedBuffer_length] at hd; omega
    have hz : chunkSamples st.buffer = 0 := by
      rcases hJ with hz | hlt
      · exact hz
      · omega
    have hk : (pushedBuffer st d t).length - 1000 ≤ st.buffer.length := by
      rw [pushedBuffer_length]; omega
    unfold pushedBuffer at hk ⊢
    rw [List.drop_append_of_le_length hk, chunkSamples_append,
      chunkSamples_drop_of_zero _ _ hz, hz]
    simp [chunkSamples]
  · rw [if_neg hd]
    rw [pushedBuffer_samples]

theorem add_chunk_conserves {α : Type} (st : AudioBuffer α) (d : List α) (t : ℚ)
    (hJ : chunkSamples st.buffer = 0 ∨ st.buffer.length < 100) :
    chunkSamples (st.add_chunk d t).1.buffer + optSamples (st.add_chunk d t).2 =
        chunkSamples st.buffer + d.length ∧
      (chunkSamples (st.add_chunk d t).1.buffer = 0 ∨
        (st.add_chunk d t).1.buffer.length < 100) := by
  have hcreate : ∀ q : AudioBuffer α,
      chunkSamples (q.create_segment).1.buffer + optSamples (q.create_segment).2 =
          chunkSamples q.buffer ∧
        (chunkSamples (q.create_segment).1.buffer = 0 ∨
          (q.create_segment).1.buffer.length < 100) := by
    intro q
    refine ⟨create_segment_conserves q, ?_⟩
    rcases create_segment_cases q with ⟨h, hz⟩ | ⟨_hnz, c, rest, _hb, h⟩
    · rw [h]; exact Or.inl hz
    · rw [h]; exact Or.inl rfl
  have hpb : chunkSamples (pushChunk st d t).buffer = chunkSamples st.buffer + d.length :=
    pushChunk_samples st d t hJ
  have hsb : (scanChunk (pushChunk st d t) d).buffer = (pushChunk st d t).buffer := rfl
  rw [add_chunk_dispatch]
  split_ifs with h1 h2 h3 h4
  · obtain ⟨hc, hj⟩ := hcreate (pushChunk st d t)
    rw [hpb] at hc
    exact ⟨hc, hj⟩
  · obtain ⟨hc, hj⟩ := hcreate (scanChunk (pushChunk st d t) d)
    rw [hsb, hpb] at hc
    exact ⟨hc, hj⟩
  · obtain ⟨hc, hj⟩ := hcreate (scanChunk (pushChunk st d t) d)
    rw [hsb, hpb] at hc
    exact ⟨hc, hj⟩
  · obtain ⟨hc, hj⟩ := hcreate (scanChunk (pushChunk st d t) d)
    rw [hsb, hpb] at hc
    exact ⟨hc, hj⟩
  · refine ⟨?_, ?_⟩
    · show chunkSamples (scanChunk (pushChunk st d t) d).buffer + optSamples none =
        chunkSamples st.buffer + d.length
      rw [hsb, hpb]
      simp [optSamples]
    · right
      show (scanChunk (pushChunk st d t) d).buffer.length < 100
      unfold countCond at h4
      omega

theorem optSamples_toList {α : Type} (o : Option (AudioSegment α)) :
    ((o.toList.map (fun u => u.data.length)).sum) = optSamples o := by
  cases o <;> simp [optSamples]

theorem feed_conserves {α : Type} (chunks : List (List α × ℚ)) :
    ∀ st : AudioBuffer α, (chunkSamples st.buffer = 0 ∨ st.buffer.length < 100) →
      chunkSamples (feed st chunks).1.buffer +
          (((feed st chunks).2).map (fun u => u.data.length)).sum =
        chunkSamples st.buffer + (chunks.map (fun c => c.1.length)).sum ∧
      (chunkSamples (feed st chunks).1.buffer = 0 ∨
        (feed st chunks).1.buffer.length < 100) := by
  induction chunks with
  | nil =>
    intro st hJ
    exact ⟨by simp [feed], by simpa [feed] using hJ⟩
  | cons c rest ih =>
    obtain ⟨d, t⟩ := c
    intro st hJ
    obtain ⟨hc, hj⟩ := add_chunk_conserves st d t hJ
    obtain ⟨hr, hj'⟩ := ih (st.add_chunk d t).1 hj
    refine ⟨?_, ?_⟩
    · show chunkSamples (feed (st.add_chunk d t).1 rest).1.buffer +
        (((st.add_chunk d t).2.toList ++ (feed (st.add_chunk d t).1 rest).2).map
          (fun u => u.data.length)).sum = _
      rw [List.map_append, List.sum_append, optSamples_toList]
      simp only [List.map_cons, List.sum_cons]
      omega
    · exact hj'

/-!
## Claim theorems
-/

/-- C2: for every session (any VAD oracle and buffer configuration) and every
sequence of chunks fed through `AudioBuffer.add_chunk`, the sum of sample
counts of all emitted Utterances plus the samples still held in the buffer
(the partial tail discarded at disconnect) equals the sum of sample counts of
all submitted chunks — no call to `add_chunk` drops samples. -/
theorem c2_no_audio_loss {α : Type} (vad : List α → Bool) (sr : ℕ) (sd mbd : ℚ)
    (chunks : List (List α × ℚ)) :
    (((feed (mkAudioBuffer vad sr sd mbd) chunks).2).map
        (fun u => u.data.length)).sum +
      chunkSamples (feed (mkAudioBuffer vad sr sd mbd) chunks).1.buffer =
      (chunks.map (fun c => c.1.length)).sum := by
  have h := (feed_conserves chunks (mkAudioBuffer vad sr sd mbd) (Or.inl rfl)).1
  have hz : chunkSamples (mkAudioBuffer (α := α) vad sr sd mbd).buffer = 0 := rfl
  omega

/-- C3: during the VAD scan of a chunk's 30 ms sub-frames, a frame classified
as speech increments `speech_frames` and zeroes `silence_frames`, a frame
classified as silence increments `silence_frames` and leaves `speech_frames`
untouched; in particular `speech_frames` is never decreased by the scan, and a
run of silence-classified frames leaves it exactly unchanged. -/
theorem c3_vad_counter_updates {α : Type} (vad : List α → Bool) (sp si : ℕ)
    (f : List α) (fs : List (List α)) :
    (vadScan vad (sp, si) (f :: fs) =
        vadScan vad (if vad f then (sp + 1, 0) else (sp, si + 1)) fs) ∧
      sp ≤ (vadScan vad (sp, si) fs).1 ∧
      ((∀ g ∈ fs, vad g = false) → vadScan vad (sp, si) fs = (sp, si + fs.length)) :=
  ⟨vadScan_cons vad sp si f fs, vadScan_speech_mono vad fs sp si,
    vadScan_all_silence vad fs sp si⟩

/-- Witness for C3 at a concrete input: from counters `(2, 1)`, scanning one
silence-classified frame yields `(2, 2)` — `speech_frames` not reset. -/
theorem c3_vad_counter_updates_witness :
    vadScan (fun _ : List Unit => false) (2, 1) [[]] = (2, 2) ∧
      2 ≤ (vadScan (fun _ : List Unit => false) (2, 1) [[]]).1 :=
  ⟨(c3_vad_counter_updates (fun _ : List Unit => false) 2 1 [] [[]]).2.2 (by decide),
   (c3_vad_counter_updates (fun _ : List Unit => false) 2 1 [] [[]]).2.1⟩

/-- C6 counterexample: with the default construction
`AudioBuffer(sample_rate=16000, segment_duration=3.0, max_buffer_duration=15.0)`
the effective `max_silence_frames` is `int(1.0 * 1000 / 30) = 33` (≈ 1 s of
30 ms frames), not the claimed 500 ms equivalent `int(0.5 * 1000 / 30) = 16`:
the 500 ms assignment is overwritten by a duplicated initialization block. -/
theorem c6_default_config_counterexample :
    (mkAudioBuffer (fun _ : List Unit => true)).max_silence_frames = 33 ∧
      (500 / 30 : ℕ) = 16 ∧ (mkAudioBuffer (fun _ : List Unit => true)).max_silence_frames ≠ 16 := by
  refine ⟨rfl, rfl, ?_⟩
  decide

/-- C6 (amended): the Segmenting Buffer's default configuration is 16 kHz,
3 s target segment, 15 s overflow ceiling, `min_speech_frames =
int(0.2·1000/30) = 6` (200 ms of 30 ms frames), and `max_silence_frames =
int(1.0·1000/30) = 33` (1000 ms of 30 ms frames; the source's 500 ms
assignment is dead, overwritten by a duplicated init block). -/
theorem c6_default_config {α : Type} (vad : List α → Bool) :
    (mkAudioBuffer vad).sample_rate = 16000 ∧
      (mkAudioBuffer vad).segment_duration = 3 ∧
      (mkAudioBuffer vad).max_buffer_duration = 15 ∧
      (mkAudioBuffer vad).min_speech_frames = 200 / 30 ∧
      (mkAudioBuffer vad).min_speech_frames = 6 ∧
      (mkAudioBuffer vad).max_silence_frames = 1000 / 30 ∧
      (mkAudioBuffer vad).max_silence_frames = 33 :=
  ⟨rfl, rfl, rfl, rfl, rfl, rfl, rfl⟩

theorem add_chunk_some_resets {α : Type} (st : AudioBuffer α) (d : List α) (t : ℚ)
    (st' : AudioBuffer α) (u : AudioSegment α)
    (h : st.add_chunk d t = (st', some u)) :
    st'.buffer = [] ∧ st'.speech_frames = 0 ∧ st'.silence_frames = 0 ∧
      st'.total_duration = 0 := by
  rw [add_chunk_dispatch] at h
  split_ifs at h
  case _ =>
    have h2 : ((pushChunk st d t).create_segment).2 = some u := by rw [h]
    have hr := create_segment_some_resets _ u h2
    rw [h] at hr
    exact hr
  case _ =>
    have h2 : ((scanChunk (pushChunk st d t) d).create_segment).2 = some u := by rw [h]
    have hr := create_segment_some_resets _ u h2
    rw [h] at hr
    exact hr
  case _ =>
    have h2 : ((scanChunk (pushChunk st d t) d).create_segment).2 = some u := by rw [h]
    have hr := create_segment_some_resets _ u h2
    rw [h] at hr
    exact hr
  case _ =>
    have h2 : ((scanChunk (pushChunk st d t) d).create_segment).2 = some u := by rw [h]
    have hr := create_segment_some_resets _ u h2
    rw [h] at hr
    exact hr
  case _ =>
    exact absurd (congrArg Prod.snd h) (by simp)

/-- C8: whenever `add_chunk` emits an Utterance it resets the chunk
accumulation, both VAD counters and the accumulated duration to empty/zero;
and an emission attempt (`_create_segment`) returns `None` only when the
accumulated audio is empty (zero samples) at the check point. -/
theorem c8_emission_reset {α : Type} :
    (∀ (st : AudioBuffer α) (d : List α) (t : ℚ) (st' : AudioBuffer α)
        (u : AudioSegment α),
        st.add_chunk d t = (st', some u) →
        st'.buffer = [] ∧ st'.speech_frames = 0 ∧ st'.silence_frames = 0 ∧
          st'.total_duration = 0) ∧
    (∀ (st st' : AudioBuffer α) (r : Option (AudioSegment α)),
        st.create_segment = (st', r) → r = none → chunkSamples st.buffer = 0) := by
  constructor
  · exact fun st d t st' u h => add_chunk_some_resets st d t st' u h
  · intro st st' r h hr
    subst hr
    exact (create_segment_none_eq st (by rw [h])).2

/-- A concrete buffer state about to overflow: 20 s accumulated, one buffered
chunk of one sample. -/
def c8Input : AudioBuffer Unit :=
  { mkAudioBuffer (fun _ : List Unit => true) with
      buffer := [{ data := [()], timestamp := 5, sample_rate := 16000 }],
      total_duration := 20 }

theorem c8Input_add_chunk_eval :
    c8Input.add_chunk [] 0 =
      (mkAudioBuffer (fun _ : List Unit => true),
       some { data := [()], timestamp := 5, sample_rate := 16000 }) := by
  have hover : overflowCond (pushChunk c8Input [] 0) := by
    show (15 : ℚ) ≤ (pushChunk c8Input [] 0).total_duration
    norm_num [pushChunk, c8Input, mkAudioBuffer, AudioSegment.duration]
  rw [add_chunk_dispatch, if_pos hover]
  rw [create_segment_cons (pushChunk c8Input [] 0)
    { data := [()], timestamp := 5, sample_rate := 16000 }
    [{ data := [], timestamp := 0, sample_rate := 16000 }] rfl]
  rw [if_neg (by decide)]
  rfl

/-- Witness for C8 at a concrete input: an overflow emission from `c8Input`
lands in the fully reset state, and an emission attempt on an empty buffer
reports an empty accumulation. -/
theorem c8_emission_reset_witness :
    ((mkAudioBuffer (fun _ : List Unit => true)).buffer = [] ∧
      (mkAudioBuffer (fun _ : List Unit => true)).speech_frames = 0 ∧
      (mkAudioBuffer (fun _ : List Unit => true)).silence_frames = 0 ∧
      (mkAudioBuffer (fun _ : List Unit => true)).total_duration = 0) ∧
    chunkSamples (mkAudioBuffer (fun _ : List Unit => true)).buffer = 0 :=
  ⟨c8_emission_reset.1 c8Input [] 0 (mkAudioBuffer (fun _ : List Unit => true))
      { data := [()], timestamp := 5, sample_rate := 16000 } c8Input_add_chunk_eval,
   c8_emission_reset.2 (mkAudioBuffer (fun _ : List Unit => true))
      (mkAudioBuffer (fun _ : List Unit => true)) none rfl rfl⟩

/-!
## C1: boundary policy
-/

theorem add_chunk_isSome_iff {α : Type} (st : AudioBuffer α) (d : List α) (t : ℚ) :
    ((st.add_chunk d t).2.isSome = true) ↔
      ((overflowCond (pushChunk st d t) ∨
          vadBoundaryCond (scanChunk (pushChunk st d t) d) ∨
          durationCond (scanChunk (pushChunk st d t) d) ∨
          countCond (scanChunk (pushChunk st d t) d)) ∧
        chunkSamples (pushChunk st d t).buffer ≠ 0) := by
  have hsb : (scanChunk (pushChunk st d t) d).buffer = (pushChunk st d t).buffer := rfl
  rw [add_chunk_dispatch]
  split_ifs with h1 h2 h3 h4
  · rw [create_segment_isSome_iff]
    simp [h1]
  · rw [create_segment_isSome_iff, hsb]
    simp [h2]
  · rw [create_segment_isSome_iff, hsb]
    simp [h3]
  · rw [create_segment_isSome_iff, hsb]
    simp [h4]
  · simp [h1, h2, h3, h4]

/-- C1 (amended): `add_chunk` evaluates the boundary conditions in the
priority order overflow → VAD boundary → duration fallback → count fallback,
the first satisfied one triggering an emission attempt (`_create_segment`),
and returns `None` when none is satisfied; the attempt emits an Utterance
exactly when the accumulated samples are nonempty (an all-empty accumulation
yields `None` even with a boundary condition satisfied). -/
theorem c1_boundary_policy {α : Type} (st : AudioBuffer α) (d : List α) (t : ℚ) :
    (st.add_chunk d t =
      (if overflowCond (pushChunk st d t) then (pushChunk st d t).create_segment
       else if vadBoundaryCond (scanChunk (pushChunk st d t) d) then
         (scanChunk (pushChunk st d t) d).create_segment
       else if durationCond (scanChunk (pushChunk st d t) d) then
         (scanChunk (pushChunk st d t) d).create_segment
       else if countCond (scanChunk (pushChunk st d t) d) then
         (scanChunk (pushChunk st d t) d).create_segment
       else (scanChunk (pushChunk st d t) d, none))) ∧
    (((st.add_chunk d t).2.isSome = true) ↔
      ((overflowCond (pushChunk st d t) ∨
          vadBoundaryCond (scanChunk (pushChunk st d t) d) ∨
          durationCond (scanChunk (pushChunk st d t) d) ∨
          countCond (scanChunk (pushChunk st d t) d)) ∧
        chunkSamples (pushChunk st d t).buffer ≠ 0)) :=
  ⟨add_chunk_dispatch st d t, add_chunk_isSome_iff st d t⟩

/-- The all-silence VAD oracle used for the C1 counterexample run. -/
def vadFalse : List Unit → Bool := fun _ => false

/-- The single empty chunk used in the C1 counterexample run. -/
def emptyChunkU : AudioSegment Unit :=
  { data := [], timestamp := 0, sample_rate := 16000 }

/-- The buffer state after `n` empty chunks from the default construction. -/
def emptyRunState (n : ℕ) : AudioBuffer Unit :=
  { mkAudioBuffer vadFalse with buffer := List.replicate n emptyChunkU }

theorem scanChunk_nil {α : Type} (st : AudioBuffer α) : scanChunk st [] = st := by
  unfold scanChunk
  have hframes : chunkFrames (st.sample_rate * 3 / 100) ([] : List α) = [] := by
    rw [chunkFrames]
    rw [dif_pos (by simp; omega)]
  simp only [hframes]
  rfl

theorem emptyRun_push (k : ℕ) (hk : k < 1000) :
    pushChunk (emptyRunState k) [] 0 = emptyRunState (k + 1) := by
  have hb : (pushChunk (emptyRunState k) [] 0).buffer =
      List.replicate (k + 1) emptyChunkU := by
    rw [pushChunk_buffer, if_neg (by rw [pushedBuffer_length]; simp [emptyRunState]; omega)]
    show List.replicate k emptyChunkU ++ [_] = _
    rw [List.replicate_succ' (n := k)]
    rfl
  have ht : (pushChunk (emptyRunState k) [] 0).total_duration = 0 := by
    show (emptyRunState k).total_duration +
      (({ data := [], timestamp := 0,
          sample_rate := (emptyRunState k).sample_rate } : AudioSegment Unit)).duration = 0
    norm_num [emptyRunState, mkAudioBuffer, AudioSegment.duration]
  have h1 : pushChunk (emptyRunState k) [] 0 =
      { emptyRunState k with buffer := (pushChunk (emptyRunState k) [] 0).buffer,
                             total_duration := (pushChunk (emptyRunState k) [] 0).total_duration } := rfl
  rw [h1, hb, ht]
  rfl

theorem emptyRun_not_overflow (m : ℕ) : ¬ overflowCond (emptyRunState m) := by
  show ¬ ((15 : ℚ) ≤ 0)
  norm_num

theorem emptyRun_not_vad (m : ℕ) : ¬ vadBoundaryCond (emptyRunState m) := by
  intro h
  have h1 : (200 / 30 : ℕ) ≤ 0 := h.1
  exact absurd h1 (by decide)

theorem emptyRun_not_duration (m : ℕ) : ¬ durationCond (emptyRunState m) := by
  show ¬ ((3 : ℚ) ≤ 0)
  norm_num

theorem emptyRun_create_none (m : ℕ) :
    (emptyRunState m).create_segment = (emptyRunState m, none) := by
  cases m with
  | zero => exact create_segment_nil _ rfl
  | succ k =>
    have hb : (emptyRunState (k + 1)).buffer =
        emptyChunkU :: List.replicate k emptyChunkU := by
      show List.replicate (k + 1) emptyChunkU = _
      rw [List.replicate_succ]
    rw [create_segment_cons _ _ _ hb]
    rw [if_pos (by simp [emptyChunkU, List.isEmpty_iff, List.flatten_eq_nil_iff,
      List.mem_replicate])]

theorem emptyRun_step (k : ℕ) (hk : k < 1000) :
    (emptyRunState k).add_chunk [] 0 = (emptyRunState (k + 1), none) := by
  rw [add_chunk_dispatch, emptyRun_push k hk, scanChunk_nil]
  rw [if_neg (emptyRun_not_overflow (k + 1)), if_neg (emptyRun_not_vad (k + 1)),
    if_neg (emptyRun_not_duration (k + 1))]
  by_cases hcount : countCond (emptyRunState (k + 1))
  · rw [if_pos hcount, emptyRun_create_none]
  · rw [if_neg hcount]

theorem emptyRun_feed (n : ℕ) : ∀ k : ℕ, k + n ≤ 1000 →
    feed (emptyRunState k) (List.replicate n ([], 0)) = (emptyRunState (k + n), []) := by
  induction n with
  | zero => intro k _; simp [feed]
  | succ n ih =>
    intro k hk
    rw [List.replicate_succ]
    rw [feed]
    simp only [emptyRun_step k (by omega)]
    rw [ih (k + 1) (by omega)]
    have hkn : k + 1 + n = k + (n + 1) := by omega
    rw [hkn]
    rfl

/-- C1 counterexample refuting the claim as stated: after 99 empty (zero
sample) chunks, the 100th empty chunk satisfies the count-fallback condition
(4) — and none of the earlier conditions — yet `add_chunk` returns `None`
rather than emitting an Utterance, and no Utterance is ever emitted during
the whole run. -/
theorem c1_boundary_policy_counterexample :
    ¬ overflowCond (pushChunk
        ((feed (mkAudioBuffer vadFalse) (List.replicate 99 ([], 0))).1) [] 0) ∧
    ¬ vadBoundaryCond (scanChunk (pushChunk
        ((feed (mkAudioBuffer vadFalse) (List.replicate 99 ([], 0))).1) [] 0) []) ∧
    ¬ durationCond (scanChunk (pushChunk
        ((feed (mkAudioBuffer vadFalse) (List.replicate 99 ([], 0))).1) [] 0) []) ∧
    countCond (scanChunk (pushChunk
        ((feed (mkAudioBuffer vadFalse) (List.replicate 99 ([], 0))).1) [] 0) []) ∧
    (((feed (mkAudioBuffer vadFalse) (List.replicate 99 ([], 0))).1.add_chunk [] 0).2 =
      none) ∧
    (feed (mkAudioBuffer vadFalse) (List.replicate 100 ([], 0))).2 = [] := by
  have h0 : emptyRunState 0 = mkAudioBuffer vadFalse := rfl
  have h99 : (feed (mkAudioBuffer vadFalse) (List.replicate 99 ([], (0 : ℚ)))).1 =
      emptyRunState 99 := by
    have h := emptyRun_feed 99 0 (by omega)
    rw [h0] at h
    rw [h]
  have h100 : (feed (mkAudioBuffer vadFalse) (List.replicate 100 ([], (0 : ℚ)))).2 = [] := by
    have h := emptyRun_feed 100 0 (by omega)
    rw [h0] at h
    rw [h]
  refine ⟨?_, ?_, ?_, ?_, ?_, h100⟩
  · rw [h99, emptyRun_push 99 (by omega)]
    exact emptyRun_not_overflow 100
  · rw [h99, emptyRun_push 99 (by omega), scanChunk_nil]
    exact emptyRun_not_vad 100
  · rw [h99, emptyRun_push 99 (by omega), scanChunk_nil]
    exact emptyRun_not_duration 100
  · rw [h99, emptyRun_push 99 (by omega), scanChunk_nil]
    show 100 ≤ (List.replicate 100 emptyChunkU).length
    simp
  · rw [h99, emptyRun_step 99 (by omega)]

/-!
## String lemmas: `str.split` / `" ".join` / `str.strip` interplay
-/

theorem splitWs_cons_ws {c : Char} {cs : List Char} (h : c.isWhitespace = true) :
    splitWs (c :: cs) = splitWs cs := by
  rw [splitWs, if_pos h]

theorem splitWs_cons_not_ws {c : Char} {cs : List Char} (h : c.isWhitespace = false) :
    splitWs (c :: cs) =
      (c :: cs.takeWhile (fun d => !d.isWhitespace)) ::
        splitWs (cs.dropWhile (fun d => !d.isWhitespace)) := by
  rw [splitWs, if_neg (by simp [h])]

theorem splitWs_sound :
    ∀ l : List Char, ∀ w ∈ splitWs l, w ≠ [] ∧ ∀ c ∈ w, c.isWhitespace = false := by
  intro l
  induction l using splitWs.induct with
  | case1 => simp [splitWs]
  | case2 c cs hws ih =>
    intro w hw
    rw [splitWs_cons_ws hws] at hw
    exact ih w hw
  | case3 c cs hws ih =>
    have hc : c.isWhitespace = false := by
      cases h : c.isWhitespace
      · rfl
      · exact absurd h hws
    intro w hw
    rw [splitWs_cons_not_ws hc, List.mem_cons] at hw
    rcases hw with rfl | hw
    · refine ⟨by simp, ?_⟩
      intro d hd
      rw [List.mem_cons] at hd
      rcases hd with rfl | hd
      · exact hc
      · have := List.mem_takeWhile_imp hd
        simpa using this
    · exact ih w hw

theorem takeWhile_append_all {p : Char → Bool} (w t : List Char)
    (h : ∀ c ∈ w, p c = true) :
    (w ++ t).takeWhile p = w ++ t.takeWhile p := by
  induction w with
  | nil => simp
  | cons a w ih =>
    have ha : p a = true := h a (List.mem_cons_self a w)
    simp only [List.cons_append, List.takeWhile_cons, ha, if_true]
    rw [ih (fun c hc => h c (List.mem_cons_of_mem a hc))]

theorem dropWhile_append_all {p : Char → Bool} (w t : List Char)
    (h : ∀ c ∈ w, p c = true) :
    (w ++ t).dropWhile p = t.dropWhile p := by
  induction w with
  | nil => simp
  | cons a w ih =>
    have ha : p a = true := h a (List.mem_cons_self a w)
    simp only [List.cons_append, List.dropWhile_cons, ha, if_true]
    exact ih (fun c hc => h c (List.mem_cons_of_mem a hc))

theorem splitWs_word_append (w t : List Char) (hw : w ≠ [])
    (hnws : ∀ c ∈ w, c.isWhitespace = false)
    (ht : t = [] ∨ ∃ c t', t = c :: t' ∧ c.isWhitespace = true) :
    splitWs (w ++ t) = w :: splitWs t := by
  obtain ⟨c, w', rfl⟩ : ∃ c w', w = c :: w' := by
    cases w with
    | nil => exact absurd rfl hw
    | cons c w' => exact ⟨c, w', rfl⟩
  have hc := hnws c (List.mem_cons_self c w')
  rw [List.cons_append, splitWs_cons_not_ws hc]
  have hw' : ∀ d ∈ w', (fun d => !d.isWhitespace) d = true := by
    intro d hd
    simp [hnws d (List.mem_cons_of_mem c hd)]
  have htake : t.takeWhile (fun d => !d.isWhitespace) = [] := by
    rcases ht with rfl | ⟨a, t', rfl, ha⟩
    · rfl
    · rw [List.takeWhile_cons_of_neg (by simp [ha])]
  have hdrop : t.dropWhile (fun d => !d.isWhitespace) = t := by
    rcases ht with rfl | ⟨a, t', rfl, ha⟩
    · rfl
    · rw [List.dropWhile_cons_of_neg (by simp [ha])]
  rw [takeWhile_append_all w' t hw', dropWhile_append_all w' t hw', htake, hdrop,
    List.append_nil]

theorem splitWs_joinWords (ws : List (List Char))
    (h : ∀ w ∈ ws, w ≠ [] ∧ ∀ c ∈ w, c.isWhitespace = false) :
    splitWs (joinWords ws) = ws := by
  induction ws with
  | nil => simp [joinWords, splitWs]
  | cons w ws ih =>
    obtain ⟨hw, hnws⟩ := h w (List.mem_cons_self w ws)
    cases ws with
    | nil =>
      show splitWs (joinWords [w]) = [w]
      have hj : joinWords [w] = w := rfl
      have h2 := splitWs_word_append w [] hw hnws (Or.inl rfl)
      rw [List.append_nil] at h2
      rw [hj, h2]
      simp [splitWs]
    | cons w2 ws2 =>
      have hj : joinWords (w :: w2 :: ws2) = w ++ ' ' :: joinWords (w2 :: ws2) := rfl
      rw [hj, splitWs_word_append w _ hw hnws
        (Or.inr ⟨' ', joinWords (w2 :: ws2), rfl, by decide⟩)]
      rw [splitWs_cons_ws (by decide)]
      rw [ih (fun x hx => h x (List.mem_cons_of_mem w hx))]

theorem stripWs_eq_self {l : List Char}
    (h1 : ∀ c m, l = c :: m → c.isWhitespace = false)
    (h2 : ∀ c m, l.reverse = c :: m → c.isWhitespace = false) : stripWs l = l := by
  unfold stripWs
  cases hl : l with
  | nil => rfl
  | cons c m =>
    rw [List.dropWhile_cons_of_neg (by simp [isWsChar, h1 c m hl])]
    cases hr : (c :: m).reverse with
    | nil => exact absurd hr (by simp)
    | cons d m' =>
      rw [List.dropWhile_cons_of_neg
        (by simp [isWsChar, h2 d m' (by rw [hl, hr])])]
      rw [← hr, List.reverse_reverse]

theorem joinWords_first {ws : List (List Char)}
    (h : ∀ w ∈ ws, w ≠ [] ∧ ∀ c ∈ w, c.isWhitespace = false) :
    ∀ c m, joinWords ws = c :: m → c.isWhitespace = false := by
  cases ws with
  | nil => intro c m hj; exact absurd hj (by simp [joinWords])
  | cons w ws =>
    obtain ⟨hw, hnws⟩ := h w (List.mem_cons_self w ws)
    obtain ⟨a, w', rfl⟩ : ∃ a w', w = a :: w' := by
      cases w with
      | nil => exact absurd rfl hw
      | cons a w' => exact ⟨a, w', rfl⟩
    intro c m hj
    have hac : a = c := by
      cases ws with
      | nil => exact (List.cons.injEq a w' c m ▸ hj).1
      | cons w2 ws2 =>
        have hj2 : joinWords ((a :: w') :: w2 :: ws2) =
            a :: (w' ++ ' ' :: joinWords (w2 :: ws2)) := rfl
        rw [hj2] at hj
        exact (List.cons.injEq a _ c m ▸ hj).1
    rw [← hac]
    exact hnws a (List.mem_cons_self a w')

theorem joinWords_reverse_first {ws : List (List Char)}
    (h : ∀ w ∈ ws, w ≠ [] ∧ ∀ c ∈ w, c.isWhitespace = false) :
    ∀ c m, (joinWords ws).reverse = c :: m → c.isWhitespace = false := by
  induction ws with
  | nil => intro c m hj; exact absurd hj (by simp [joinWords])
  | cons w ws ih =>
    intro c m hr
    cases ws with
    | nil =>
      have hj : joinWords [w] = w := rfl
      rw [hj] at hr
      have hc : c ∈ w := by
        rw [← List.mem_reverse, hr]
        exact List.mem_cons_self c m
      exact (h w (List.mem_cons_self w [])).2 c hc
    | cons w2 ws2 =>
      have hj : joinWords (w :: w2 :: ws2) = w ++ ' ' :: joinWords (w2 :: ws2) := rfl
      rw [hj, List.reverse_append, List.reverse_cons] at hr
      cases hJr : (joinWords (w2 :: ws2)).reverse with
      | nil =>
        have hJ : joinWords (w2 :: ws2) = [] := by
          have := congrArg List.reverse hJr
          simpa using this
        have hw2 : w2 ≠ [] := (h w2 (by simp)).1
        cases ws2 with
        | nil => exact absurd hJ hw2
        | cons w3 ws3 =>
          have : joinWords (w2 :: w3 :: ws3) = w2 ++ ' ' :: joinWords (w3 :: ws3) := rfl
          rw [this] at hJ
          rcases List.append_eq_nil.mp hJ with ⟨_, h2⟩
          exact absurd h2 (by simp)
      | cons d m' =>
        rw [hJr, List.cons_append, List.cons_append] at hr
        have hdc : d = c := (List.cons.injEq d _ c m ▸ hr).1
        rw [← hdc]
        exact ih (fun x hx => h x (List.mem_cons_of_mem w hx)) d m' hJr

theorem clean_text_fix (t : List Char) :
    clean_text (stripWs (clean_text (stripWs t))) = clean_text (stripWs t) := by
  have hws : clean_text (stripWs t) =
      joinWords ((splitWs (stripWs t)).filter
        (fun w => !UNWANTED_PHRASES.contains (lowerStr w))) := rfl
  have hprops : ∀ w ∈ (splitWs (stripWs t)).filter
      (fun w => !UNWANTED_PHRASES.contains (lowerStr w)),
      w ≠ [] ∧ ∀ c ∈ w, c.isWhitespace = false := by
    intro w hw
    rw [List.mem_filter] at hw
    exact splitWs_sound _ w hw.1
  rw [hws]
  rw [stripWs_eq_self (joinWords_first hprops) (joinWords_reverse_first hprops)]
  show joinWords ((splitWs _).filter _) = _
  rw [splitWs_joinWords _ hprops]
  congr 1
  apply List.filter_eq_self.mpr
  intro w hw
  rw [List.mem_filter] at hw
  exact hw.2

theorem filterSeg_stable (s s' : RawSegment) (h : filterSeg s = some s') :
    filterSeg s' = some s' := by
  unfold filterSeg at h
  by_cases h1 : s.avg_logprob < -1
  · rw [if_pos h1] at h
    exact absurd h (by simp)
  · rw [if_neg h1] at h
    by_cases h2 : clean_text (stripWs s.text) ≠ [] ∧ 3 < (clean_text (stripWs s.text)).length
    · rw [if_pos h2] at h
      by_cases h3 : UNWANTED_PHRASES.any
          (fun p => hasSubstr p (lowerStr (clean_text (stripWs s.text))))
      · rw [if_pos h3] at h
        exact absurd h (by simp)
      · rw [if_neg h3] at h
        have hs' : s' = { s with text := clean_text (stripWs s.text) } :=
          (Option.some.inj h).symm
        have htext : s'.text = clean_text (stripWs s.text) := by rw [hs']
        have hfix : clean_text (stripWs s'.text) = s'.text := by
          rw [htext, clean_text_fix]
        unfold filterSeg
        have h1' : ¬ s'.avg_logprob < -1 := by rw [hs']; exact h1
        rw [if_neg h1', hfix]
        rw [if_pos (by rw [htext]; exact h2)]
        rw [if_neg (by rw [htext]; exact h3)]
    · rw [if_neg h2] at h
      exact absurd h (by simp)

/-- C9: the post-decoding filter is idempotent — re-running the segment filter
pipeline on an already-filtered segment list yields the identical list, hence
identical segment texts and identical space-joined transcript text. -/
theorem c9_filter_idempotent (segs : List RawSegment) :
    filterCore (filterCore segs) = filterCore segs ∧
      joinWords (((filterCore (filterCore segs)).map (fun s => s.text)).filter
          (fun t => !t.isEmpty)) =
        joinWords (((filterCore segs).map (fun s => s.text)).filter
          (fun t => !t.isEmpty)) := by
  have h : filterCore (filterCore segs) = filterCore segs := by
    unfold filterCore
    induction segs with
    | nil => rfl
    | cons s rest ih =>
      cases hs : filterSeg s with
      | none => simp only [List.filterMap_cons, hs, ih]
      | some s' =>
        simp only [List.filterMap_cons, hs, filterSeg_stable s s' hs, ih]
  exact ⟨h, by rw [h]⟩

/-!
## C4: the post-decoding filter pipeline
-/

theorem filterCore_staged (segs : List RawSegment) :
    filterCore segs = stageBlocklist (stageLength (stageClean (stageConfidence segs))) := by
  induction segs with
  | nil => rfl
  | cons s rest ih =>
    by_cases h1 : s.avg_logprob < -1
    · have hf : filterSeg s = none := by unfold filterSeg; rw [if_pos h1]
      have hl : stageConfidence (s :: rest) = stageConfidence rest := by
        unfold stageConfidence
        rw [List.filter_cons_of_neg (by simp [h1])]
      show List.filterMap filterSeg (s :: rest) = _
      rw [List.filterMap_cons, hf, hl]
      exact ih
    · have hl : stageConfidence (s :: rest) = s :: stageConfidence rest := by
        unfold stageConfidence
        rw [List.filter_cons_of_pos (by simp [h1])]
      have hm : stageClean (s :: stageConfidence rest) =
          ({ s with text := clean_text (stripWs s.text) } : RawSegment) ::
            stageClean (stageConfidence rest) := by
        unfold stageClean
        rw [List.map_cons]
      by_cases h2 : clean_text (stripWs s.text) ≠ [] ∧ 3 < (clean_text (stripWs s.text)).length
      · by_cases h3 : UNWANTED_PHRASES.any
            (fun p => hasSubstr p (lowerStr (clean_text (stripWs s.text)))) = true
        · have hf : filterSeg s = none := by
            unfold filterSeg
            rw [if_neg h1, if_pos h2, if_pos h3]
          have hlen : stageLength
              (({ s with text := clean_text (stripWs s.text) } : RawSegment) ::
                stageClean (stageConfidence rest)) =
              ({ s with text := clean_text (stripWs s.text) } : RawSegment) ::
                stageLength (stageClean (stageConfidence rest)) := by
            unfold stageLength
            rw [List.filter_cons_of_pos
              (by simp only [List.isEmpty_iff]; simp [h2.1, h2.2])]
          have hbl : stageBlocklist
              (({ s with text := clean_text (stripWs s.text) } : RawSegment) ::
                stageLength (stageClean (stageConfidence rest))) =
              stageBlocklist (stageLength (stageClean (stageConfidence rest))) := by
            unfold stageBlocklist
            rw [List.filter_cons_of_neg (by simp [h3])]
          show List.filterMap filterSeg (s :: rest) = _
          rw [List.filterMap_cons, hf, hl, hm, hlen, hbl]
          exact ih
        · have hf : filterSeg s =
              some ({ s with text := clean_text (stripWs s.text) } : RawSegment) := by
            unfold filterSeg
            rw [if_neg h1, if_pos h2, if_neg h3]
          have hlen : stageLength
              (({ s with text := clean_text (stripWs s.text) } : RawSegment) ::
                stageClean (stageConfidence rest)) =
              ({ s with text := clean_text (stripWs s.text) } : RawSegment) ::
                stageLength (stageClean (stageConfidence rest)) := by
            unfold stageLength
            rw [List.filter_cons_of_pos
              (by simp only [List.isEmpty_iff]; simp [h2.1, h2.2])]
          have hbl : stageBlocklist
              (({ s with text := clean_text (stripWs s.text) } : RawSegment) ::
                stageLength (stageClean (stageConfidence rest))) =
              ({ s with text := clean_text (stripWs s.text) } : RawSegment) ::
                stageBlocklist (stageLength (stageClean (stageConfidence rest))) := by
            unfold stageBlocklist
            rw [List.filter_cons_of_pos (by simp [h3])]
          show List.filterMap filterSeg (s :: rest) = _
          rw [List.filterMap_cons, hf, hl, hm, hlen, hbl]
          exact congrArg _ ih
      · have hf : filterSeg s = none := by
          unfold filterSeg
          rw [if_neg h1, if_neg h2]
        have hlen : stageLength
            (({ s with text := clean_text (stripWs s.text) } : RawSegment) ::
              stageClean (stageConfidence rest)) =
            stageLength (stageClean (stageConfidence rest)) := by
          unfold stageLength
          rw [List.filter_cons_of_neg ?_]
          rw [not_and_or] at h2
          rcases h2 with h2 | h2
          · simp only [not_not] at h2
            simp [h2]
          · simp only [Bool.and_eq_true, not_and]
            intro _
            simpa using h2
        show List.filterMap filterSeg (s :: rest) = _
        rw [List.filterMap_cons, hf, hl, hm, hlen]
        exact ih

theorem mem_filterCore_text {segs : List RawSegment} {s : RawSegment}
    (hs : s ∈ filterCore segs) : s.text ≠ [] ∧ 3 < s.text.length := by
  unfold filterCore at hs
  rw [List.mem_filterMap] at hs
  obtain ⟨a, _, hfa⟩ := hs
  unfold filterSeg at hfa
  by_cases h1 : a.avg_logprob < -1
  · rw [if_pos h1] at hfa
    exact absurd hfa (by simp)
  · rw [if_neg h1] at hfa
    by_cases h2 : clean_text (stripWs a.text) ≠ [] ∧ 3 < (clean_text (stripWs a.text)).length
    · rw [if_pos h2] at hfa
      by_cases h3 : UNWANTED_PHRASES.any
          (fun p => hasSubstr p (lowerStr (clean_text (stripWs a.text)))) = true
      · rw [if_pos h3] at hfa
        exact absurd hfa (by simp)
      · rw [if_neg h3] at hfa
        have h := Option.some.inj hfa
        rw [← h]
        exact h2
    · rw [if_neg h2] at hfa
      exact absurd hfa (by simp)

theorem full_text_of_join (ts : ℚ) (segs : List RawSegment) :
    full_text_of (transcript_segments ts segs) =
      joinWords ((transcript_segments ts segs).map (fun s => s.text)) := by
  unfold full_text_of
  congr 1
  apply List.filter_eq_self.mpr
  intro t ht
  rw [List.mem_map] at ht
  obtain ⟨s, hs, rfl⟩ := ht
  unfold transcript_segments at hs
  rw [List.mem_map] at hs
  obtain ⟨a, ha, rfl⟩ := hs
  have := (mem_filterCore_text ha).1
  simpa [List.isEmpty_iff] using this

/-- C4 (amended): the post-decoding filter of `transcribe_segment` equals, in
order, (a) dropping segments with confidence below the −1.0 floor, (b)
removing from each segment's (stripped) text every whitespace-delimited word
whose lowercase form exactly equals a configured unwanted phrase (not
substring stripping), (c) dropping segments whose cleaned text is empty or not
longer than 3 characters (there is no pure-digit drop at this stage), and (d)
dropping segments whose lowercase cleaned text contains an unwanted phrase as
a substring; the surviving segments' texts, space-joined, are the returned
transcript text. -/
theorem c4_filter_pipeline (ts : ℚ) (segs : List RawSegment) :
    (transcript_segments ts segs =
      (stageBlocklist (stageLength (stageClean (stageConfidence segs)))).map
        (fun seg => { text := seg.text, start := ts + seg.start,
                      end_ := ts + seg.end_,
                      confidence := seg.avg_logprob : TranscriptSegment })) ∧
    (full_text_of (transcript_segments ts segs) =
      joinWords ((transcript_segments ts segs).map (fun s => s.text))) := by
  constructor
  · unfold transcript_segments
    rw [filterCore_staged]
  · exact full_text_of_join ts segs

/-- C4 counterexample refuting the claim as stated: a returned segment whose
text is the pure digit string `"1234"` (confidence 0, above the floor)
survives the whole filter — clause (c)'s claimed pure-digit drop does not
exist in this filter — and its text becomes the transcript text. -/
theorem c4_filter_counterexample :
    ((transcript_segments 0
        [{ text := "1234".data, avg_logprob := 0, start := 0, end_ := 0 }]).map
      (fun s => s.text)) = ["1234".data] ∧
      isDigitStr "1234".data = true := by
  constructor
  · have hstrip : stripWs "1234".data = "1234".data := by decide
    have hsplit : splitWs "1234".data = ["1234".data] := by
      have h := splitWs_word_append "1234".data [] (by decide) (by decide) (Or.inl rfl)
      rw [List.append_nil] at h
      rw [h]
      simp [splitWs]
    have hclean : clean_text (stripWs "1234".data) = "1234".data := by
      unfold clean_text
      rw [hstrip, hsplit, List.filter_cons_of_pos (by decide)]
      rfl
    have hf : filterSeg { text := "1234".data, avg_logprob := 0, start := 0, end_ := 0 } =
        some { text := "1234".data, avg_logprob := 0, start := 0, end_ := 0 } := by
      unfold filterSeg
      rw [if_neg (by decide)]
      simp only [hclean]
      rw [if_pos (by decide), if_neg (by decide)]
    unfold transcript_segments filterCore
    rw [List.filterMap_cons, hf]
    rfl
  · decide

/-!
## C5: transcription error handling and CPU fallback
-/

theorem transcribeHandler_ok {α : Type} (st : WhisperState) (seg : AudioSegment α)
    (rl : Except (List Char) Unit) (c2 : Except (List Char) RawTranscription)
    (u2 : Except (List Char) Unit) (e : List Char) :
    ∃ r, transcribeHandler st seg rl c2 u2 e = .ok r := by
  unfold transcribeHandler
  split_ifs
  · cases rl with
    | error _ => exact ⟨_, rfl⟩
    | ok _ =>
      cases c2 with
      | error _ => exact ⟨_, rfl⟩
      | ok raw =>
        cases u2 with
        | error _ => exact ⟨_, rfl⟩
        | ok _ => exact ⟨_, rfl⟩
  · exact ⟨_, rfl⟩

/-- C5: `transcribe_segment` never lets an exception escape to its caller; on
a transcription error whose signature indicates a CUDA fault while the active
device is `"cuda"`, it reloads the model onto CPU in place (device and
compute type switched) and retries the same Utterance exactly once — the
result is then built from that single retry — and if the retry (or the
reload itself) fails, the call returns the error dict carrying the
Utterance's timing bounds and empty text. -/
theorem c5_cpu_fallback {α : Type} (st : WhisperState) (seg : AudioSegment α)
    (w : Except (List Char) Unit) (c1 : Except (List Char) RawTranscription)
    (u1 : Except (List Char) Unit) (rl : Except (List Char) Unit)
    (c2 : Except (List Char) RawTranscription) (u2 : Except (List Char) Unit) :
    (∃ r, transcribe_segment st seg w c1 u1 rl c2 u2 = .ok r) ∧
    (∀ e : List Char, st.model_loaded = true → st.device = "cuda".data →
      w = .ok () → c1 = .error e → cudaSignature e = true →
      ((∀ raw, rl = .ok () → c2 = .ok raw → u2 = .ok () →
          transcribe_segment st seg w c1 u1 rl c2 u2 =
            .ok ({ st with device := "cpu".data, compute_type := "int8".data },
                 retryResult
                   { st with device := "cpu".data, compute_type := "int8".data }
                   seg raw)) ∧
        (∀ e2, rl = .ok () → c2 = .error e2 →
          transcribe_segment st seg w c1 u1 rl c2 u2 =
            .ok ({ st with device := "cpu".data, compute_type := "int8".data },
                 errorResult seg e)) ∧
        (∀ e2, rl = .error e2 →
          transcribe_segment st seg w c1 u1 rl c2 u2 = .ok (st, errorResult seg e)))) ∧
    (∀ e : List Char, (errorResult (α := α) seg e).text = [] ∧
      (errorResult (α := α) seg e).start = seg.timestamp ∧
      (errorResult (α := α) seg e).end_ = seg.timestamp + seg.duration) := by
  refine ⟨?_, ?_, fun e => ⟨rfl, rfl, rfl⟩⟩
  · unfold transcribe_segment
    split_ifs
    · cases w with
      | error e => exact transcribeHandler_ok st seg rl c2 u2 e
      | ok _ =>
        cases c1 with
        | error e => exact transcribeHandler_ok st seg rl c2 u2 e
        | ok raw =>
          cases u1 with
          | error e => exact transcribeHandler_ok st seg rl c2 u2 e
          | ok _ => exact ⟨_, rfl⟩
    · exact ⟨_, rfl⟩
  · intro e hml hdev hw hc1 hsig
    subst hw
    subst hc1
    have hstep : transcribe_segment st seg (.ok ()) (.error e) u1 rl c2 u2 =
        transcribeHandler st seg rl c2 u2 e := by
      unfold transcribe_segment
      rw [if_neg (by simp [hml])]
    refine ⟨?_, ?_, ?_⟩
    · intro raw hrl hc2 hu2
      subst hrl; subst hc2; subst hu2
      rw [hstep]
      unfold transcribeHandler
      rw [if_pos ⟨hsig, hdev⟩]
    · intro e2 hrl hc2
      subst hrl; subst hc2
      rw [hstep]
      unfold transcribeHandler
      rw [if_pos ⟨hsig, hdev⟩]
    · intro e2 hrl
      subst hrl
      rw [hstep]
      unfold transcribeHandler
      rw [if_pos ⟨hsig, hdev⟩]

/-- Witness for C5 at a concrete input: a CUDA-signature failure with a CUDA
device, whose CPU retry also fails, returns (never raises) the error dict
with empty text and the Utterance's timing bounds, on the CPU-reloaded
engine state. -/
theorem c5_cpu_fallback_witness :
    transcribe_segment (α := Unit)
        { model_size := "medium".data, device := "cuda".data,
          compute_type := "int8".data, model_loaded := true }
        { data := [], timestamp := 0, sample_rate := 16000 }
        (.ok ()) (.error "cuda error on device".data) (.ok ()) (.ok ())
        (.error "cpu decode failed".data) (.ok ()) =
      .ok ({ model_size := "medium".data, device := "cpu".data,
             compute_type := "int8".data, model_loaded := true },
           errorResult (α := Unit) { data := [], timestamp := 0, sample_rate := 16000 }
             "cuda error on device".data) :=
  ((c5_cpu_fallback
      { model_size := "medium".data, device := "cuda".data,
        compute_type := "int8".data, model_loaded := true }
      { data := [], timestamp := 0, sample_rate := 16000 }
      (.ok ()) (.error "cuda error on device".data) (.ok ()) (.ok ())
      (.error "cpu decode failed".data) (.ok ())).2.1
    "cuda error on device".data rfl rfl rfl rfl (by decide)).2.1
    "cpu decode failed".data rfl rfl

/-!
## C7: stop-recording aggregation quality tier
-/

/-- C7 (amended): the quality tier is a function of the final
`original_transcript` character count with strict thresholds — `"high"` iff
the count exceeds 100, `"medium"` iff it exceeds 50 without exceeding 100,
`"low"` iff it is at most 50 (so a count of exactly 100 is `"medium"`, and
exactly 50 is `"low"`); a session with zero transcripts yields the artifact
with empty original transcript and quality `"low"` without failing. -/
theorem c7_quality_tier (texts : List (List Char)) :
    ((stopArtifact texts).transcript_quality = "high".data ↔
        100 < (original_transcript_of texts).length) ∧
      ((stopArtifact texts).transcript_quality = "medium".data ↔
        (50 < (original_transcript_of texts).length ∧
          (original_transcript_of texts).length ≤ 100)) ∧
      ((stopArtifact texts).transcript_quality = "low".data ↔
        (original_transcript_of texts).length ≤ 50) ∧
      stopArtifact [] =
        { original_transcript := [], transcript_quality := "low".data,
          total_transcript_segments := 0, valid_transcript_segments := 0,
          original_transcript_length := 0 } := by
  have hq : (stopArtifact texts).transcript_quality =
      transcript_quality (original_transcript_of texts) := rfl
  refine ⟨?_, ?_, ?_, by decide⟩
  · rw [hq]
    unfold transcript_quality
    split_ifs with h1 h2
    · exact ⟨fun _ => h1, fun _ => rfl⟩
    · exact ⟨fun h => absurd h (by decide), fun h => absurd h h1⟩
    · exact ⟨fun h => absurd h (by decide), fun h => absurd h h1⟩
  · rw [hq]
    unfold transcript_quality
    split_ifs with h1 h2
    · exact ⟨fun h => absurd h (by decide), fun h => by omega⟩
    · exact ⟨fun _ => ⟨h2, by omega⟩, fun _ => rfl⟩
    · exact ⟨fun h => absurd h (by decide), fun h => absurd h.1 h2⟩
  · rw [hq]
    unfold transcript_quality
    split_ifs with h1 h2
    · exact ⟨fun h => absurd h (by decide), fun h => by omega⟩
    · exact ⟨fun h => absurd h (by decide), fun h => by omega⟩
    · exact ⟨fun _ => by omega, fun _ => rfl⟩

/-- C7 counterexample refuting the claim as stated: a single valid transcript
of exactly 100 characters yields an original transcript of length 100 but
quality `"medium"`, not the claimed `"high"` (the code's threshold is strict
`> 100`). -/
theorem c7_quality_counterexample :
    (stopArtifact [List.replicate 100 'a']).original_transcript_length = 100 ∧
      (stopArtifact [List.replicate 100 'a']).transcript_quality = "medium".data := by
  decide

/-!
## C10: start_recording overwrites an existing session
-/

/-- C10: when a client already has an active session, `handle_start_recording`
overwrites the client's `active_sessions` entry with a fresh Session (empty
transcript list, zero audio chunk count, new session id), leaves other
clients' entries alone, re-points the ASR processor at the new session with a
cleared transcript accumulation, and sends exactly one `recording_started`
message — no `recording_stopped`, aggregation, or `error` is produced for the
discarded session. -/
theorem c10_start_overwrites (now : ℕ) (client captureMode : List Char)
    (audio_only storage_enabled : Bool) (base : List Char)
    (sessions : List Char → Option SessionRec) (asr : Option ASRSessionState)
    (asr_ready : Bool) (old : SessionRec)
    (_hold : sessions client = some old) :
    ((handle_start_recording now client captureMode audio_only storage_enabled base
        sessions asr asr_ready).1 client =
      some { session_id := sessionIdOf now client, client_id := client,
             capture_mode := captureMode, start_time := (now : ℚ),
             transcripts := [], audio_chunks := 0, audio_only := audio_only,
             storage_path :=
               if storage_enabled then
                 some (base ++ "/".data ++ sessionIdOf now client)
               else none }) ∧
    (∀ c, c ≠ client →
      (handle_start_recording now client captureMode audio_only storage_enabled base
          sessions asr asr_ready).1 c = sessions c) ∧
    ((handle_start_recording now client captureMode audio_only storage_enabled base
        sessions asr asr_ready).2.2 =
      [OutMessage.recording_started (sessionIdOf now client) (asr.isSome && asr_ready)]) ∧
    (∀ m ∈ (handle_start_recording now client captureMode audio_only storage_enabled base
        sessions asr asr_ready).2.2,
      (∀ a, m ≠ OutMessage.recording_stopped a) ∧ ∀ s, m ≠ OutMessage.error s) ∧
    (∀ a, asr = some a →
      (handle_start_recording now client captureMode audio_only storage_enabled base
          sessions asr asr_ready).2.1 =
        some { session_id := some (sessionIdOf now client), transcripts := [] }) := by
  refine ⟨?_, ?_, rfl, ?_, ?_⟩
  · show (if client = client then _ else sessions client) = _
    rw [if_pos rfl]
  · intro c hc
    show (if c = client then _ else sessions c) = sessions c
    rw [if_neg hc]
  · intro m hm
    have hm2 : m ∈ [OutMessage.recording_started (sessionIdOf now client)
        (asr.isSome && asr_ready)] := hm
    simp only [List.mem_singleton] at hm2
    subst hm2
    exact ⟨fun a => by simp, fun s => by simp⟩
  · intro a ha
    subst ha
    rfl

/-- Witness for C10 at a concrete input: a client with an accumulated session
gets a fresh empty session bound after a new `start_recording`. -/
theorem c10_start_overwrites_witness :
    (handle_start_recording 0 "c1".data "microphone".data true false
        "recorded_sessions".data
        (fun c => if c = "c1".data then
          some { session_id := "old".data, client_id := "c1".data,
                 capture_mode := "microphone".data, start_time := 0,
                 transcripts := ["hello there".data], audio_chunks := 3,
                 audio_only := true, storage_path := none }
          else none)
        (some { session_id := some "old".data,
                transcripts := ["hello there".data] })
        true).1 "c1".data =
      some { session_id := sessionIdOf 0 "c1".data, client_id := "c1".data,
             capture_mode := "microphone".data, start_time := ((0 : ℕ) : ℚ),
             transcripts := [], audio_chunks := 0, audio_only := true,
             storage_path := none } :=
  (c10_start_overwrites 0 "c1".data "microphone".data true false
      "recorded_sessions".data
      (fun c => if c = "c1".data then
        some { session_id := "old".data, client_id := "c1".data,
               capture_mode := "microphone".data, start_time := 0,
               transcripts := ["hello there".data], audio_chunks := 3,
               audio_only := true, storage_path := none }
        else none)
      (some { session_id := some "old".data,
              transcripts := ["hello there".data] })
      true
      { session_id := "old".data, client_id := "c1".data,
        capture_mode := "microphone".data, start_time := 0,
        transcripts := ["hello there".data], audio_chunks := 3,
        audio_only := true, storage_path := none }
      rfl).1
